import Mathlib

/-!
# A verification development for the `easyflag` flag-loading engine

This file gives a shallow embedding, in Lean 4, of the metadata-driven flag
collection and validation engine of the `easyflag` Go package (repository
`matusvla/easyflag`), and proves properties of it.

The embedding follows the newest revision of the sources.  The authoritative
source files are `flag.go` (the `ParseAndLoadFlags` orchestrator with its
deferred zero-value reset, and the constants `helpArg = "-help"`,
`helpArgShort = "-h"`, `requiredValue = "required"`) and the newest revision
of `flagbuilder.go` (the `flagBuilder` structure, `setUpFlags`,
`parseFlagData`, `parseBaseFlagData`, `addFlagData`, `validate` and
`runExtensionFunctions`).  Where the engine calls into the Go standard
library (`strings.Split`, `strings.TrimSpace`, `strconv.Parse*`,
`time.ParseDuration`, and `flag.FlagSet.Parse`), those collaborators are
modelled here as executable Lean functions; they are external to the
repository and the spec treats them as out-of-scope collaborators.

Go structures handled by the engine are modelled by the tree type `PStruct`;
machine integers are modelled as `Int`/`Nat` with explicit range checks where
the decoders enforce them (`int` and `uint` of the modelled platform are
64 bits wide, as on the usual 64-bit targets); `float64` default literals are
modelled exactly as rationals by a simplified decimal decoder (no claim in
this development depends on float rounding); fallible code returns `Except`
or `Option`.
-/

namespace Easyflag

/-! ## Models of Go standard-library string helpers

`goSplit` models `strings.Split` with a one-character separator (the engine
only ever splits on `'|'`): `strings.Split("", sep)` yields `[""]`, and a
trailing separator yields a trailing empty segment.  `goTrim` models
`strings.TrimSpace` restricted to ASCII white space, which is the only white
space appearing in the repository's tags and tests. -/

def splitAux (sep : Char) : List Char → List Char → List String
  | [], acc => [String.mk acc.reverse]
  | c :: tl, acc =>
    if c = sep then String.mk acc.reverse :: splitAux sep tl []
    else splitAux sep tl (c :: acc)

def goSplit (s : String) (sep : Char) : List String := splitAux sep s.data []

def isSpaceChar (c : Char) : Bool :=
  c = ' ' ∨ c = '\t' ∨ c = '\n' ∨ c = '\r'

def dropLeadingSpace : List Char → List Char
  | [] => []
  | c :: tl => if isSpaceChar c then dropLeadingSpace tl else c :: tl

def goTrim (s : String) : String :=
  String.mk (dropLeadingSpace (dropLeadingSpace s.data.reverse).reverse)

def goQuote (s : String) : String := "\"" ++ s ++ "\""

/-! ## Models of the Go standard-library value decoders

These model the decoders that the struct walker dispatches to:
`strconv.ParseBool`, `strconv.Atoi`/`strconv.ParseInt`, `strconv.ParseUint`
(base 10, with the bit size given at the call site and overflow reported as
an error), a simplified `strconv.ParseFloat` (plain decimal literals, valued
exactly in `ℚ`), and a simplified `time.ParseDuration` (optionally signed
sequences of integer-valued components with a unit suffix). -/

def parseBool (s : String) : Except String Bool :=
  if s = "1" ∨ s = "t" ∨ s = "T" ∨ s = "true" ∨ s = "TRUE" ∨ s = "True" then
    .ok true
  else if s = "0" ∨ s = "f" ∨ s = "F" ∨ s = "false" ∨ s = "FALSE" ∨ s = "False" then
    .ok false
  else
    .error ("strconv.ParseBool: parsing " ++ goQuote s ++ ": invalid syntax")

def decDigitsAux : List Char → Nat → Option Nat
  | [], acc => some acc
  | c :: tl, acc =>
    if '0' ≤ c ∧ c ≤ '9' then decDigitsAux tl (acc * 10 + (c.toNat - 48))
    else none

/-- The numeric value of a nonempty string of decimal digits, `none` otherwise. -/
def decDigitsVal? : List Char → Option Nat
  | [] => none
  | l => decDigitsAux l 0

/-- Model of `strconv.ParseUint(s, 10, bits)`: decimal digits only (no sign),
value below `2 ^ bits`. -/
def parseUintGo (s : String) (bits : Nat) : Except String Nat :=
  match decDigitsVal? s.data with
  | none => .error ("strconv.ParseUint: parsing " ++ goQuote s ++ ": invalid syntax")
  | some n =>
    if n < 2 ^ bits then .ok n
    else .error ("strconv.ParseUint: parsing " ++ goQuote s ++ ": value out of range")

/-- Model of `strconv.ParseInt(s, 10, bits)` (and of `strconv.Atoi` with
`bits = 64`): an optional sign followed by decimal digits, value within
`[-2 ^ (bits - 1), 2 ^ (bits - 1) - 1]`. -/
def parseIntGo (s : String) (bits : Nat) : Except String Int :=
  let signDigits : Bool × List Char :=
    match s.data with
    | '-' :: tl => (true, tl)
    | '+' :: tl => (false, tl)
    | l => (false, l)
  match decDigitsVal? signDigits.2 with
  | none => .error ("strconv.ParseInt: parsing " ++ goQuote s ++ ": invalid syntax")
  | some n =>
    if signDigits.1 then
      if n ≤ 2 ^ (bits - 1) then .ok (-(n : Int))
      else .error ("strconv.ParseInt: parsing " ++ goQuote s ++ ": value out of range")
    else
      if n < 2 ^ (bits - 1) then .ok (n : Int)
      else .error ("strconv.ParseInt: parsing " ++ goQuote s ++ ": value out of range")

def splitAtDot : List Char → List Char × Option (List Char)
  | [] => ([], none)
  | '.' :: tl => ([], some tl)
  | c :: tl => let r := splitAtDot tl; (c :: r.1, r.2)

def allDigits (l : List Char) : Bool :=
  match l with
  | [] => true
  | c :: tl => if '0' ≤ c ∧ c ≤ '9' then allDigits tl else false

/-- Simplified model of `strconv.ParseFloat(s, 64)`: an optional sign, an
integer part and an optional fractional part, valued exactly as a rational
(exponents, hex floats, infinities and rounding are not modelled; no claim
below depends on them). -/
def parseFloatGo (s : String) : Except String Rat :=
  let signDigits : Bool × List Char :=
    match s.data with
    | '-' :: tl => (true, tl)
    | '+' :: tl => (false, tl)
    | l => (false, l)
  let parts := splitAtDot signDigits.2
  let intPart := parts.1
  let fracPart := (parts.2).getD []
  if intPart.isEmpty ∧ fracPart.isEmpty then
    .error ("strconv.ParseFloat: parsing " ++ goQuote s ++ ": invalid syntax")
  else if allDigits intPart ∧ allDigits fracPart then
    let i : Nat := (decDigitsAux intPart 0).getD 0
    let f : Nat := (decDigitsAux fracPart 0).getD 0
    let q : Rat := (i : Rat) + (f : Rat) / ((10 : Rat) ^ fracPart.length)
    .ok (if signDigits.1 then -q else q)
  else
    .error ("strconv.ParseFloat: parsing " ++ goQuote s ++ ": invalid syntax")

def takeDigits : List Char → List Char × List Char
  | [] => ([], [])
  | c :: tl =>
    if '0' ≤ c ∧ c ≤ '9' then
      let r := takeDigits tl
      (c :: r.1, r.2)
    else ([], c :: tl)

def durUnit? : List Char → Option (Nat × List Char)
  | 'n' :: 's' :: tl => some (1, tl)
  | 'u' :: 's' :: tl => some (1000, tl)
  | 'µ' :: 's' :: tl => some (1000, tl)
  | 'm' :: 's' :: tl => some (1000000, tl)
  | 's' :: tl => some (1000000000, tl)
  | 'm' :: tl => some (60000000000, tl)
  | 'h' :: tl => some (3600000000000, tl)
  | _ => none

def parseDurChunks : Nat → List Char → Option Nat
  | _, [] => some 0
  | 0, _ => none
  | fuel + 1, l =>
    let r := takeDigits l
    if r.1.isEmpty then none
    else
      match decDigitsVal? r.1 with
      | none => none
      | some n =>
        match durUnit? r.2 with
        | none => none
        | some ur => (parseDurChunks fuel ur.2).map (fun acc => n * ur.1 + acc)

/-- Simplified model of `time.ParseDuration`: an optional sign and a nonempty
sequence of `<integer><unit>` components (units `ns`, `us`, `µs`, `ms`, `s`,
`m`, `h`), with `"0"` allowed without a unit; the result is a count of
nanoseconds.  Fractional components are not modelled; no claim below depends
on them. -/
def parseDurationGo (s : String) : Except String Int :=
  let signDigits : Bool × List Char :=
    match s.data with
    | '-' :: tl => (true, tl)
    | '+' :: tl => (false, tl)
    | l => (false, l)
  if signDigits.2 = ['0'] then .ok 0
  else if signDigits.2.isEmpty then
    .error ("time: invalid duration " ++ goQuote s)
  else
    match parseDurChunks signDigits.2.length signDigits.2 with
    | none => .error ("time: invalid duration " ++ goQuote s)
    | some n => .ok (if signDigits.1 then -(n : Int) else (n : Int))

/-! ## Go values and field types

`GoVal` models a value of one of the eight field types supported by the
engine's type switch in `setUpFlags`, or (`vother`) a value of an annotated
field whose static type is outside that set and is not a struct.  The
modelled platform has 64-bit `int` and `uint`. -/

inductive GoVal where
  | vstr (s : String)
  | vbool (b : Bool)
  | vint (n : Int)
  | vint64 (n : Int)
  | vuint (n : Nat)
  | vuint64 (n : Nat)
  | vfloat64 (q : Rat)
  | vduration (n : Int)
  | vother (tname : String)
  deriving DecidableEq, Repr

/-- Whether the value's type is one of the eight cases of the type switch in
`setUpFlags`. -/
def GoVal.isSupported : GoVal → Bool
  | .vother _ => false
  | _ => true

/-- The Go name of the value's static type, as `%T` would print it. -/
def GoVal.typeName : GoVal → String
  | .vstr _ => "string"
  | .vbool _ => "bool"
  | .vint _ => "int"
  | .vint64 _ => "int64"
  | .vuint _ => "uint"
  | .vuint64 _ => "uint64"
  | .vfloat64 _ => "float64"
  | .vduration _ => "time.Duration"
  | .vother t => t

/-- The zero value of the value's type (`reflect.Zero`). -/
def GoVal.zero : GoVal → GoVal
  | .vstr _ => .vstr ""
  | .vbool _ => .vbool false
  | .vint _ => .vint 0
  | .vint64 _ => .vint64 0
  | .vuint _ => .vuint 0
  | .vuint64 _ => .vuint64 0
  | .vfloat64 _ => .vfloat64 0
  | .vduration _ => .vduration 0
  | .vother t => .vother t

/-- Model of `reflect.Value.IsZero` on the supported field types. -/
def isZeroVal : GoVal → Bool
  | .vstr s => s = ""
  | .vbool b => !b
  | .vint n => n = 0
  | .vint64 n => n = 0
  | .vuint n => n = 0
  | .vuint64 n => n = 0
  | .vfloat64 q => q = 0
  | .vduration n => n = 0
  | .vother _ => true

/-- The per-type default-value decoder dispatched to by the type switch of
`setUpFlags` (flagbuilder.go): text passthrough for `string`,
`strconv.ParseBool` for `bool`, `strconv.Atoi` for `int`,
`strconv.ParseInt(s, 10, 64)` for `int64`, `strconv.ParseUint(s, 10, 32)`
followed by a conversion to `uint` for `uint`, `strconv.ParseUint(s, 10, 64)`
for `uint64`, `strconv.ParseFloat(s, 64)` for `float64`, and
`time.ParseDuration` for `time.Duration`. -/
def decodeDefault (fld : GoVal) (s : String) : Except String GoVal :=
  match fld with
  | .vstr _ => .ok (.vstr s)
  | .vbool _ => (parseBool s).map .vbool
  | .vint _ => (parseIntGo s 64).map .vint
  | .vint64 _ => (parseIntGo s 64).map .vint64
  | .vuint _ => (parseUintGo s 32).map (fun n => GoVal.vuint n)
  | .vuint64 _ => (parseUintGo s 64).map .vuint64
  | .vfloat64 _ => (parseFloatGo s).map .vfloat64
  | .vduration _ => (parseDurationGo s).map .vduration
  | .vother t => .error ("unsupported flag type: " ++ t)

/-! ## Errors

`GoError` gathers the error values the engine can return, mirroring the
error taxonomy of the spec (§7); `errMsg` renders each one as the Go code's
`fmt.Errorf` format string does.  The target-validation error
(`InvalidParamsError`, for a nil / non-pointer / non-struct target) is not
representable in this embedding, because a `PStruct` target is a struct by
construction. -/

inductive GoError where
  | reservedFlag (hyphenated : String)
  | malformedMetadata (segment : String)
  | unsupportedType (tname : String)
  | defaultParse (msg : String)
  | cliParse (msg : String)
  | extensionFailed (cause : String)
  | missingRequired (names : List String)
  deriving DecidableEq, Repr

/-- Model of `strings.Join(l, ", ")`. -/
def joinComma : List String → String
  | [] => ""
  | [a] => a
  | a :: tl => a ++ ", " ++ joinComma tl

def errMsg : GoError → String
  | .reservedFlag h => "reserved flag " ++ h ++ " overwriting not allowed"
  | .malformedMetadata seg => "unsupported value " ++ goQuote seg ++ " in the fourth metadata part"
  | .unsupportedType t => "unsupported flag type: " ++ t
  | .defaultParse m => m
  | .cliParse m => m
  | .extensionFailed c => "extension running failed: " ++ c
  | .missingRequired names =>
    match names with
    | [] => ""
    | [_] => "missing required flag " ++ goQuote (joinComma names) ++ " or its value"
    | _ => "missing required flags " ++ goQuote (joinComma names) ++ " or their values"

/-! ## The metadata parser -/

def helpArg : String := "-help"
def helpArgShort : String := "-h"
def requiredValue : String := "required"

structure BaseFlagData where
  name : String
  usage : String
  isRequired : Bool
  deriving DecidableEq, Repr

/-- The guard rejecting a flag whose name, prefixed with a hyphen, equals a
reserved help spelling. -/
def checkReserved (r : BaseFlagData × String) : Except GoError (BaseFlagData × String) :=
  if "-" ++ r.1.name = helpArgShort ∨ "-" ++ r.1.name = helpArg then
    .error (.reservedFlag ("-" ++ r.1.name))
  else .ok r

/-- Modelled from the spec: the current revision of the metadata parser
(`parseBaseFlagData` of package `easyflag`) is not among the available
source files — only an older revision without the two rejection paths is,
while the current tests (flag_test.go: "fail - fourth segment invalid",
"fail - trying to overwrite the short/long help flag") exercise them.
Following spec §4.1 and those tests: the annotation is split on `'|'`;
`name`, `usage` and the default text are trimmed; a fourth segment equal to
the required marker sets `isRequired` and clears the default text; a fourth
segment that is present and neither empty nor the marker is a
"unsupported value in the fourth metadata part" error; finally a name whose
hyphen-prefixed form equals a reserved help spelling is a
"reserved flag overwriting not allowed" error.  The returned string is the
(possibly cleared) trimmed default-value text. -/
def parseBaseFlagData (flagMetadata : String) : Except GoError (BaseFlagData × String) :=
  let metadataParts := goSplit flagMetadata '|'
  let name := goTrim (metadataParts.getD 0 "")
  let usage := goTrim (metadataParts.getD 1 "")
  let defaultVal := goTrim (metadataParts.getD 2 "")
  if 3 < metadataParts.length then
    let fourth := metadataParts.getD 3 ""
    if fourth = requiredValue then
      checkReserved ({ name, usage, isRequired := true }, "")
    else if fourth = "" then
      checkReserved ({ name, usage, isRequired := false }, defaultVal)
    else .error (.malformedMetadata fourth)
  else
    checkReserved ({ name, usage, isRequired := false }, defaultVal)

/-! ## Typed flag registrations and the flag builder

A `FlagReg` is one typed flag registration: the parsed metadata together
with the decoded default value (whose constructor records the field's type)
and the write-target, modelled as the field's path in the structure tree
(the Go code stores the field's address).  `FlagBuilder` mirrors the
`flagBuilder` structure: the registrations, the `values` name list, the
`required` map from flag name to write target, and the collected extension
hooks (modelled by the paths of the structs that implement `Extender`). -/

structure FlagReg where
  name : String
  usage : String
  isRequired : Bool
  defaultVal : GoVal
  path : List Nat
  deriving DecidableEq, Repr

structure FlagBuilder where
  flags : List FlagReg
  values : List (String × Bool)
  required : List (String × List Nat)
  extFns : List (List Nat)
  deriving DecidableEq, Repr

def newFlagBuilder : FlagBuilder := ⟨[], [], [], []⟩

/-- Model of Go map assignment `m[k] = v` on the `required` map, with the
map represented as an association list with at most one entry per key. -/
def mapInsert (m : List (String × List Nat)) (k : String) (v : List Nat) :
    List (String × List Nat) :=
  match m with
  | [] => [(k, v)]
  | kv :: rest => if kv.1 = k then (k, v) :: rest else kv :: mapInsert rest k v

def lookupMap (m : List (String × List Nat)) (k : String) : Option (List Nat) :=
  match m with
  | [] => none
  | kv :: rest => if kv.1 = k then some kv.2 else lookupMap rest k

/-- `parseFlagData` (flagbuilder.go): parse the field's annotation, then, if
the (possibly cleared) default text is nonempty, decode it with the field
type's decoder, propagating the decoder's error; an empty default text
leaves the type's zero value. -/
def parseFlagData (fld : GoVal) (flagMetadata : String) (path : List Nat) :
    Except GoError FlagReg :=
  match parseBaseFlagData flagMetadata with
  | .error e => .error e
  | .ok base =>
    let flagDefault := base.2
    let decoded : Except GoError GoVal :=
      if flagDefault = "" then .ok (GoVal.zero fld)
      else
        match decodeDefault fld flagDefault with
        | .ok v => .ok v
        | .error e => .error (.defaultParse e)
    match decoded with
    | .error e => .error e
    | .ok defaultVal =>
      .ok { name := base.1.name, usage := base.1.usage, isRequired := base.1.isRequired,
            defaultVal := defaultVal, path := path }

/-- `addFlagData` (flagbuilder.go): record the flag's name in `values`
(with whether it expects a value — only booleans do not), append the
registration, and, if the flag is required, assign its write target into the
`required` map (overwriting any entry already stored under that name). -/
def addFlagData (fb : FlagBuilder) (fd : FlagReg) : FlagBuilder :=
  let isBoolFlag : Bool := match fd.defaultVal with | .vbool _ => true | _ => false
  { fb with
    values := fb.values ++ [(fd.name, !isBoolFlag)]
    flags := fb.flags ++ [fd]
    required := if fd.isRequired then mapInsert fb.required fd.name fd.path else fb.required }

/-! ## The target structure model

`PStruct` models a Go struct handed to the engine: an ordered list of
fields, each either a primitive field (its `flag` tag — `""` when absent —
and its current value) or a nested struct field, together with whether the
struct's address implements the `Extender` interface. -/

mutual
inductive PStruct where
  | mk (fields : PFields) (hasExt : Bool)
inductive PFields where
  | nil
  | cons (f : PField) (fs : PFields)
inductive PField where
  | prim (tag : String) (val : GoVal)
  | nested (tag : String) (sub : PStruct)
end

def PFields.append : PFields → PFields → PFields
  | .nil, r => r
  | .cons f fs, r => .cons f (PFields.append fs r)

def PFields.length : PFields → Nat
  | .nil => 0
  | .cons _ fs => PFields.length fs + 1

mutual
/-- The zero value of the structure's type (`reflect.Zero`): every field is
reset to its type's zero value; tags and `Extender` implementations are
type-level and unchanged. -/
def PStruct.zero : PStruct → PStruct
  | .mk fs e => .mk (PFields.zeroAll fs) e
def PFields.zeroAll : PFields → PFields
  | .nil => .nil
  | .cons f fs => .cons (PField.zeroF f) (PFields.zeroAll fs)
def PField.zeroF : PField → PField
  | .prim t v => .prim t (GoVal.zero v)
  | .nested t s => .nested t (PStruct.zero s)
end

mutual
/-- Dereference a write target: the value stored at a field path.  An
invalid path yields a dummy unsupported value; the engine only ever builds
valid paths. -/
def PStruct.getVal : PStruct → List Nat → GoVal
  | .mk fs _, i :: rest => PFields.getValF fs i rest
  | _, [] => .vother "badpath"
def PFields.getValF : PFields → Nat → List Nat → GoVal
  | .nil, _, _ => .vother "badpath"
  | .cons f _, 0, rest => PField.getValP f rest
  | .cons _ fs, i + 1, rest => PFields.getValF fs i rest
def PField.getValP : PField → List Nat → GoVal
  | .prim _ v, [] => v
  | .prim _ _, _ :: _ => .vother "badpath"
  | .nested _ s, p => PStruct.getVal s p
end

mutual
/-- Write through a write target: replace the value stored at a field path
(the registry writing a parsed value through the registered address). -/
def PStruct.setVal : PStruct → List Nat → GoVal → PStruct
  | .mk fs e, i :: rest, v => .mk (PFields.setValF fs i rest v) e
  | s, [], _ => s
def PFields.setValF : PFields → Nat → List Nat → GoVal → PFields
  | .nil, _, _, _ => .nil
  | .cons f fs, 0, rest, v => .cons (PField.setValP f rest v) fs
  | .cons f fs, i + 1, rest, v => .cons f (PFields.setValF fs i rest v)
def PField.setValP : PField → List Nat → GoVal → PField
  | .prim t _, [], v => .prim t v
  | .prim t w, _ :: _, _ => .prim t w
  | .nested t s, p, v => .nested t (PStruct.setVal s p v)
end

/-! ## The struct walker / flag collector (`setUpFlags`) -/

mutual
/-- `setUpFlags` (flagbuilder.go): walk the structure's fields in
declaration order, then, after the field scan, append the structure's own
extension hook if its address implements `Extender`. -/
def setUpFlags (s : PStruct) (path : List Nat) (fb : FlagBuilder) :
    Except GoError FlagBuilder :=
  match s with
  | .mk fs hasExt =>
    match walkFields fs path 0 fb with
    | .error e => .error e
    | .ok fb' => .ok (if hasExt then { fb' with extFns := fb'.extFns ++ [path] } else fb')
/-- The field loop of `setUpFlags`: `i` is the loop index (the field's index
in the struct, used to form the write-target path). -/
def walkFields (fs : PFields) (path : List Nat) (i : Nat) (fb : FlagBuilder) :
    Except GoError FlagBuilder :=
  match fs with
  | .nil => .ok fb
  | .cons f tl =>
    match processField f path i fb with
    | .error e => .error e
    | .ok fb' => walkFields tl path (i + 1) fb'
/-- One iteration of the field loop of `setUpFlags`: a struct-typed field is
recursed into by address; a field with an empty tag is skipped; otherwise
the type switch either builds and registers a flag or rejects an
unsupported field type. -/
def processField (f : PField) (path : List Nat) (i : Nat) (fb : FlagBuilder) :
    Except GoError FlagBuilder :=
  match f with
  | .nested _ sub => setUpFlags sub (path ++ [i]) fb
  | .prim tag v =>
    if tag = "" then .ok fb
    else if v.isSupported then
      match parseFlagData v tag (path ++ [i]) with
      | .error e => .error e
      | .ok fd => .ok (addFlagData fb fd)
    else .error (.unsupportedType (GoVal.typeName v))
end

/-! ## The flag registry / parser adapter

The current revision parses the token list with the Go standard library's
`flag.FlagSet` (`attachFlags` registers every collected flag on a fresh
`FlagSet`, `fs.Parse` consumes the tokens).  The spec treats this primitive
flag-matching engine as an out-of-scope collaborator (§1, §4.3); it is
modelled here: tokens `-name` and `--name` are equivalent; a first token
that is not a flag stops parsing; an unknown flag name is a
"flag provided but not defined" error; `-h`/`-help`, when no such flag is
registered, yield the distinguished help signal; a boolean flag accepts bare
presence or an inline `=value`; every other flag takes an inline `=value` or
the following token.  Values are written through the registered write
targets in token order, so writes made before a failing token persist (until
the orchestrator's rollback). -/

/-- The decoder the registry applies to a CLI-supplied value of each
field type; it differs from the default-value decoder in that the standard
library parses `uint` CLI values at the platform word size. -/
def decodeCLIValue (fld : GoVal) (s : String) : Except String GoVal :=
  match fld with
  | .vuint _ => (parseUintGo s 64).map (fun n => GoVal.vuint n)
  | f => decodeDefault f s

inductive TokKind where
  | term
  | bad (arg : String)
  | flagTok (name : String) (inlineVal : Option String)
  deriving DecidableEq, Repr

def breakEq : List Char → List Char × Option (List Char)
  | [] => ([], none)
  | '=' :: tl => ([], some tl)
  | c :: tl => let r := breakEq tl; (c :: r.1, r.2)

/-- Decompose one command-line token as `flag.FlagSet.Parse` does: strip one
or two leading hyphens, split at the first `'='`.  Tokens without a leading
hyphen (and the bare tokens `-` and `--`) terminate flag parsing. -/
def classifyTok (arg : String) : TokKind :=
  match arg.data with
  | '-' :: rest =>
    match (match rest with | '-' :: tl => tl | l => l) with
    | [] => .term
    | c :: tl =>
      if c = '-' ∨ c = '=' then .bad arg
      else
        let nv := breakEq (c :: tl)
        .flagTok (String.mk nv.1) (nv.2.map String.mk)
  | _ => .term

def lookupReg (flags : List FlagReg) (name : String) : Option FlagReg :=
  match flags with
  | [] => none
  | f :: tl => if f.name = name then some f else lookupReg tl name

inductive ArgsResult where
  | ok (s : PStruct)
  | err (e : GoError) (written : PStruct)
  | help

/-- The token-consuming loop of the registry parse: `written` carries the
structure including the writes already performed when an error stops the
loop. -/
def parseArgsLoop (flags : List FlagReg) : List String → PStruct → ArgsResult
  | [], s => .ok s
  | a :: rest, s =>
    match classifyTok a with
    | .term => .ok s
    | .bad arg => .err (.cliParse ("bad flag syntax: " ++ arg)) s
    | .flagTok name inlineVal =>
      match lookupReg flags name with
      | none =>
        if name = "h" ∨ name = "help" then .help
        else .err (.cliParse ("flag provided but not defined: -" ++ name)) s
      | some f =>
        match f.defaultVal with
        | .vbool _ =>
          match inlineVal with
          | none => parseArgsLoop flags rest (PStruct.setVal s f.path (.vbool true))
          | some v =>
            match parseBool v with
            | .ok b => parseArgsLoop flags rest (PStruct.setVal s f.path (.vbool b))
            | .error _ =>
              .err (.cliParse ("invalid boolean value " ++ goQuote v ++ " for -" ++ name)) s
        | _ =>
          match inlineVal with
          | some v =>
            match decodeCLIValue f.defaultVal v with
            | .ok gv => parseArgsLoop flags rest (PStruct.setVal s f.path gv)
            | .error e =>
              .err (.cliParse ("invalid value " ++ goQuote v ++ " for flag -" ++ name ++ ": " ++ e)) s
          | none =>
            match rest with
            | [] => .err (.cliParse ("flag needs an argument: -" ++ name)) s
            | v :: rest' =>
              match decodeCLIValue f.defaultVal v with
              | .ok gv => parseArgsLoop flags rest' (PStruct.setVal s f.path gv)
              | .error e =>
                .err (.cliParse ("invalid value " ++ goQuote v ++ " for flag -" ++ name ++ ": " ++ e)) s

/-- `parseFlags` (flagbuilder.go): attach the collected flags to a fresh
flag set and parse the passed argument list against it. -/
def parseFlags (fb : FlagBuilder) (args : List String) (s : PStruct) : ArgsResult :=
  parseArgsLoop fb.flags args s

/-! ## The extension runner -/

/-- A hook collected during the walk, semantically: a fallible transformation
of the caller's structure (a Go `Extend` method mutates fields of its record
through the captured receiver pointer). -/
def Hook : Type := PStruct → Except String PStruct

/-- `runExtensionFunctions` (flagbuilder.go): invoke every collected hook in
order; the first hook that fails stops the run and its error is returned
wrapped in an "extension running failed" error. -/
def runExtensionFunctions : List Hook → PStruct → Except GoError PStruct
  | [], s => .ok s
  | extFn :: tl, s =>
    match extFn s with
    | .error e => .error (.extensionFailed e)
    | .ok s' => runExtensionFunctions tl s'

/-! ## The required-field validator -/

/-- The collection loop of `validate` (flagbuilder.go): the names of the
required flags whose dereferenced write target still holds the type's zero
value, in map-iteration order. -/
def collectMissing (required : List (String × List Nat)) (s : PStruct) : List String :=
  match required with
  | [] => []
  | kv :: tl =>
    if isZeroVal (PStruct.getVal s kv.2) then kv.1 :: collectMissing tl s
    else collectMissing tl s

/-- `validate` (flagbuilder.go): succeed when no required flag is missing;
otherwise report all missing names (the singular/plural message split is in
`errMsg`). -/
def validate (required : List (String × List Nat)) (s : PStruct) : Option GoError :=
  match collectMissing required s with
  | [] => none
  | missing => some (.missingRequired missing)

/-! ## The orchestrator (`ParseAndLoadFlags` / `ParseAndLoad`, flag.go)

The hook environment gives the semantics of the user-defined `Extend`
methods: for the path of each struct that implements `Extender`, the
transformation its hook performs.  The deferred reset in `ParseAndLoadFlags`
is modelled by returning the zeroed structure in every error outcome;
`helpExit` models the successful `os.Exit(0)` on a help request. -/

def HookEnv : Type := List Nat → PStruct → Except String PStruct

inductive ParseOutcome where
  | ok (s : PStruct)
  | err (e : GoError) (s : PStruct)
  | helpExit

/-- `ParseAndLoadFlags` (flag.go): collect the flags from the annotated
structure, parse the argument list, run the extension hooks, validate the
required flags; on any error, reset the caller's structure to its zero
value and return the error (the `defer` in flag.go lines 62–67). -/
def ParseAndLoad (s : PStruct) (env : HookEnv) (args : List String) : ParseOutcome :=
  match setUpFlags s [] newFlagBuilder with
  | .error e => .err e (PStruct.zero s)
  | .ok fb =>
    match parseFlags fb args s with
    | .help => .helpExit
    | .err e _ => .err e (PStruct.zero s)
    | .ok s1 =>
      match runExtensionFunctions (fb.extFns.map env) s1 with
      | .error e => .err e (PStruct.zero s)
      | .ok s2 =>
        match validate fb.required s2 with
        | some e => .err e (PStruct.zero s)
        | none => .ok s2

/-! ## Derived predicates on tags and structures -/

/-- The flag name carried by an annotation: the trimmed first pipe-delimited
segment (the same computation `parseBaseFlagData` performs). -/
def tagName (tag : String) : String := goTrim ((goSplit tag '|').getD 0 "")

/-- Whether an annotation's flag name, prefixed with a hyphen, equals a
reserved help spelling. -/
def isReservedTag (tag : String) : Bool :=
  ("-" ++ tagName tag == helpArgShort) || ("-" ++ tagName tag == helpArg)

mutual
/-- Whether the structure contains, anywhere in its (possibly nested) field
tree, a supported primitive field annotated with a reserved flag name. -/
def PStruct.hasReserved : PStruct → Bool
  | .mk fs _ => PFields.hasReservedF fs
def PFields.hasReservedF : PFields → Bool
  | .nil => false
  | .cons f fs => PField.hasReservedP f || PFields.hasReservedF fs
def PField.hasReservedP : PField → Bool
  | .prim tag v => isReservedTag tag && v.isSupported
  | .nested _ s => PStruct.hasReserved s
end

/-! ## Helper lemmas -/

theorem hyphen_append_inj (x y : String) : ("-" ++ x = "-" ++ y) ↔ x = y := by
  constructor
  · intro h
    have hd := congrArg String.data h
    simp only [String.data_append] at hd
    cases x; cases y
    exact congrArg String.mk (by simpa using hd)
  · intro h; rw [h]

theorem mapInsert_mapInsert (m : List (String × List Nat)) (k : String) (v1 v2 : List Nat) :
    mapInsert (mapInsert m k v1) k v2 = mapInsert m k v2 := by
  induction m with
  | nil => simp [mapInsert]
  | cons kv rest ih =>
    by_cases h : kv.1 = k
    · simp [mapInsert, h]
    · simp [mapInsert, h, ih]

theorem lookupMap_mapInsert (m : List (String × List Nat)) (k : String) (v : List Nat) :
    lookupMap (mapInsert m k v) k = some v := by
  induction m with
  | nil => simp [mapInsert, lookupMap]
  | cons kv rest ih =>
    by_cases h : kv.1 = k
    · simp [mapInsert, h, lookupMap]
    · simp [mapInsert, h, lookupMap, ih]

theorem runExtensionFunctions_append (l1 l2 : List Hook) (s : PStruct) :
    runExtensionFunctions (l1 ++ l2) s =
      match runExtensionFunctions l1 s with
      | .ok s' => runExtensionFunctions l2 s'
      | .error e => .error e := by
  induction l1 generalizing s with
  | nil => simp [runExtensionFunctions]
  | cons f tl ih =>
    simp only [List.cons_append, runExtensionFunctions]
    cases f s with
    | error e => simp
    | ok s' => exact ih s'

theorem collectMissing_eq_nil_iff (required : List (String × List Nat)) (s : PStruct) :
    collectMissing required s = [] ↔
      ∀ kv ∈ required, isZeroVal (PStruct.getVal s kv.2) = false := by
  induction required with
  | nil => simp [collectMissing]
  | cons kv tl ih =>
    by_cases h : isZeroVal (PStruct.getVal s kv.2) = true
    · simp [collectMissing, h]
    · simp only [Bool.not_eq_true] at h
      simp [collectMissing, h, ih]

theorem mem_collectMissing_iff (required : List (String × List Nat)) (s : PStruct)
    (name : String) :
    name ∈ collectMissing required s ↔
      ∃ kv ∈ required, kv.1 = name ∧ isZeroVal (PStruct.getVal s kv.2) = true := by
  induction required with
  | nil => simp [collectMissing]
  | cons kv tl ih =>
    by_cases h : isZeroVal (PStruct.getVal s kv.2) = true
    · simp only [collectMissing, h, if_true, List.mem_cons, ih]
      constructor
      · rintro (rfl | ⟨kv', hmem, hname, hz⟩)
        · exact ⟨kv, Or.inl rfl, rfl, h⟩
        · exact ⟨kv', Or.inr hmem, hname, hz⟩
      · rintro ⟨kv', rfl | hmem', hname, hz⟩
        · exact Or.inl hname.symm
        · exact Or.inr ⟨kv', hmem', hname, hz⟩
    · simp only [Bool.not_eq_true] at h
      simp only [collectMissing, h, ih, if_false, Bool.false_eq_true, List.mem_cons]
      constructor
      · rintro ⟨kv', hmem, hname, hz⟩
        exact ⟨kv', Or.inr hmem, hname, hz⟩
      · rintro ⟨kv', rfl | hmem', hname, hz⟩
        · rw [hz] at h; exact absurd h (by simp)
        · exact ⟨kv', hmem', hname, hz⟩

theorem walkFields_append : ∀ (l r : PFields) (p : List Nat) (i : Nat) (fb : FlagBuilder),
    walkFields (PFields.append l r) p i fb =
      match walkFields l p i fb with
      | .ok fb' => walkFields r p (i + PFields.length l) fb'
      | .error e => .error e
  | .nil, r, p, i, fb => by simp [PFields.append, walkFields, PFields.length]
  | .cons f tl, r, p, i, fb => by
    simp only [PFields.append, walkFields]
    cases processField f p i fb with
    | error e => simp
    | ok fb' =>
      simp only [walkFields_append tl r p (i + 1) fb']
      have hlen : i + 1 + PFields.length tl = i + PFields.length (PFields.cons f tl) := by
        simp [PFields.length]; omega
      rw [hlen]

/-! ## Claim C4 -/

/-- C4: a non-struct field whose flag annotation is absent (empty tag) is
skipped silently by the struct walker: the loop step leaves the flag builder
unchanged (so no flag registration and no required-set entry is produced),
produces no error, and the walk continues with the next field. -/
theorem untagged_field_skipped (v : GoVal) (p : List Nat) (i : Nat) (fb : FlagBuilder)
    (rest : PFields) :
    processField (.prim "" v) p i fb = .ok fb ∧
    walkFields (.cons (.prim "" v) rest) p i fb = walkFields rest p (i + 1) fb := by
  constructor
  · simp [processField]
  · simp [walkFields, processField]

/-! ## Claim C6 -/

/-- C6: the validator succeeds exactly when no required entry dereferences
to its type's zero value; with exactly one missing name it reports the
singular "missing required flag" message naming that flag; with two or more
it reports the plural "missing required flags" message joining every
offending name; and a name is collected as missing exactly when some entry
of the required set carries it and still dereferences to zero. -/
theorem validate_missing_required (required : List (String × List Nat)) (s : PStruct) :
    (validate required s = none ↔
      ∀ kv ∈ required, isZeroVal (PStruct.getVal s kv.2) = false)
    ∧ (∀ name, collectMissing required s = [name] →
        validate required s = some (.missingRequired [name]) ∧
        errMsg (.missingRequired [name]) =
          "missing required flag " ++ goQuote name ++ " or its value")
    ∧ (∀ n1 n2 ns, collectMissing required s = n1 :: n2 :: ns →
        validate required s = some (.missingRequired (n1 :: n2 :: ns)) ∧
        errMsg (.missingRequired (n1 :: n2 :: ns)) =
          "missing required flags " ++ goQuote (joinComma (n1 :: n2 :: ns)) ++
            " or their values")
    ∧ (∀ name, name ∈ collectMissing required s ↔
        ∃ kv ∈ required, kv.1 = name ∧ isZeroVal (PStruct.getVal s kv.2) = true) := by
  refine ⟨?_, ?_, ?_, mem_collectMissing_iff required s⟩
  · rw [← collectMissing_eq_nil_iff]
    unfold validate
    cases collectMissing required s with
    | nil => simp
    | cons a tl => simp
  · intro name h
    unfold validate
    rw [h]
    exact ⟨rfl, rfl⟩
  · intro n1 n2 ns h
    unfold validate
    rw [h]
    refine ⟨rfl, ?_⟩
    simp [errMsg, joinComma]

/-- Witness for C6 at a concrete required set and structure: `str` and
`unum` are required; with only `unum` filled the singular message names
`str`; with neither filled the plural message lists both. -/
theorem validate_missing_required_witness :
    (validate [("str", [0]), ("unum", [1])]
        (.mk (.cons (.prim "s" (.vstr "")) (.cons (.prim "u" (.vuint 3)) .nil)) false) =
      some (.missingRequired ["str"])) ∧
    (errMsg (.missingRequired ["str"]) = "missing required flag \"str\" or its value") ∧
    (validate [("str", [0]), ("unum", [1])]
        (.mk (.cons (.prim "s" (.vstr "")) (.cons (.prim "u" (.vuint 0)) .nil)) false) =
      some (.missingRequired ["str", "unum"])) ∧
    (errMsg (.missingRequired ["str", "unum"]) =
      "missing required flags \"str, unum\" or their values") := by
  have h1 := (validate_missing_required [("str", [0]), ("unum", [1])]
    (.mk (.cons (.prim "s" (.vstr "")) (.cons (.prim "u" (.vuint 3)) .nil)) false)).2.1
      "str" rfl
  have h2 := (validate_missing_required [("str", [0]), ("unum", [1])]
    (.mk (.cons (.prim "s" (.vstr "")) (.cons (.prim "u" (.vuint 0)) .nil)) false)).2.2.1
      "str" "unum" [] rfl
  exact ⟨h1.1, h1.2, h2.1, h2.2⟩

/-! ## Claim C7 -/

/-- C7: the extension runner invokes the collected hooks in list order (the
run over an appended list is the run over the first part followed, on its
result, by the run over the second); when the hooks before `f` all succeed
and `f` fails with cause `e`, the whole run fails with the wrapped
"extension failed" error carrying `e`, and the hooks after `f` are never
invoked (the result does not depend on them). -/
theorem extension_runner_order_and_stop :
    (∀ (l1 l2 : List Hook) (s : PStruct),
      runExtensionFunctions (l1 ++ l2) s =
        match runExtensionFunctions l1 s with
        | .ok s' => runExtensionFunctions l2 s'
        | .error e => .error e)
    ∧ (∀ (pre post : List Hook) (f : Hook) (s s' : PStruct) (e : String),
        runExtensionFunctions pre s = .ok s' → f s' = .error e →
        runExtensionFunctions (pre ++ f :: post) s = .error (.extensionFailed e) ∧
        runExtensionFunctions (pre ++ f :: post) s =
          runExtensionFunctions (pre ++ [f]) s ∧
        errMsg (.extensionFailed e) = "extension running failed: " ++ e) := by
  refine ⟨runExtensionFunctions_append, ?_⟩
  intro pre post f s s' e hpre hf
  have h1 : runExtensionFunctions (pre ++ f :: post) s = .error (.extensionFailed e) := by
    rw [runExtensionFunctions_append, hpre]
    simp [runExtensionFunctions, hf]
  have h2 : runExtensionFunctions (pre ++ [f]) s = .error (.extensionFailed e) := by
    rw [runExtensionFunctions_append, hpre]
    simp [runExtensionFunctions, hf]
  exact ⟨h1, h1.trans h2.symm, rfl⟩

/-- Witness for C7: a concrete three-hook list over a one-field structure in
which the first hook succeeds, the second fails with the mock cause and the
third would succeed; the run stops at the second hook with the wrapped
error. -/
theorem extension_runner_order_and_stop_witness :
    runExtensionFunctions
        [fun s => .ok s,
         fun _ => .error "mock error in extension",
         fun s => .ok s]
        (.mk (.cons (.prim "ni|Testing string|" (.vstr "")) .nil) true) =
      .error (.extensionFailed "mock error in extension") := by
  exact (extension_runner_order_and_stop.2
    [fun s => .ok s]
    [fun s => .ok s]
    (fun _ => .error "mock error in extension")
    (.mk (.cons (.prim "ni|Testing string|" (.vstr "")) .nil) true)
    (.mk (.cons (.prim "ni|Testing string|" (.vstr "")) .nil) true)
    "mock error in extension" rfl rfl).1

/-! ## Claim C10 -/

/-- C10: when a second required registration carries the same flag name as
an earlier one, `addFlagData` silently overwrites the earlier required-set
entry with the later field's write target: the required map is as if the
earlier insertion never happened, the name now maps to the later field's
path, and the validator's verdict on the resulting required map depends
only on the later field. -/
theorem duplicate_required_name_overwrites (fb : FlagBuilder) (fd1 fd2 : FlagReg)
    (h1 : fd1.isRequired = true) (h2 : fd2.isRequired = true) (hn : fd1.name = fd2.name) :
    ((addFlagData (addFlagData fb fd1) fd2).required = (addFlagData fb fd2).required)
    ∧ lookupMap (addFlagData (addFlagData fb fd1) fd2).required fd2.name = some fd2.path
    ∧ ∀ s, validate (addFlagData (addFlagData fb fd1) fd2).required s =
        validate (addFlagData fb fd2).required s := by
  have hreq : (addFlagData (addFlagData fb fd1) fd2).required =
      (addFlagData fb fd2).required := by
    simp only [addFlagData, h1, h2, if_true, hn]
    exact mapInsert_mapInsert fb.required fd2.name fd1.path fd2.path
  refine ⟨hreq, ?_, fun s => by rw [hreq]⟩
  rw [hreq]
  simp only [addFlagData, h2, if_true]
  exact lookupMap_mapInsert fb.required fd2.name fd2.path

/-- Witness for C10: two required registrations named `dup`, binding paths
`[0]` and `[1]`; after both, the required map holds only the later path. -/
theorem duplicate_required_name_overwrites_witness :
    (addFlagData (addFlagData newFlagBuilder
        { name := "dup", usage := "", isRequired := true, defaultVal := .vstr "", path := [0] })
        { name := "dup", usage := "", isRequired := true, defaultVal := .vstr "", path := [1] }).required =
      [("dup", [1])] ∧
    lookupMap (addFlagData (addFlagData newFlagBuilder
        { name := "dup", usage := "", isRequired := true, defaultVal := .vstr "", path := [0] })
        { name := "dup", usage := "", isRequired := true, defaultVal := .vstr "", path := [1] }).required
      "dup" = some [1] := by
  refine ⟨rfl, ?_⟩
  exact (duplicate_required_name_overwrites newFlagBuilder
    { name := "dup", usage := "", isRequired := true, defaultVal := .vstr "", path := [0] }
    { name := "dup", usage := "", isRequired := true, defaultVal := .vstr "", path := [1] }
    rfl rfl rfl).2.1

/-! ## Lemmas about the metadata parser's rejection paths -/

theorem isReservedTag_iff (tag : String) :
    isReservedTag tag = true ↔
      "-" ++ tagName tag = helpArgShort ∨ "-" ++ tagName tag = helpArg := by
  simp [isReservedTag]

theorem isReservedTag_ne_empty {tag : String} (h : isReservedTag tag = true) : tag ≠ "" := by
  intro he
  subst he
  exact absurd h (by decide)

theorem parseBaseFlagData_reserved_err (md : String) (hres : isReservedTag md = true)
    (h4 : (goSplit md '|').length ≤ 3 ∨ (goSplit md '|').getD 3 "" = "" ∨
      (goSplit md '|').getD 3 "" = requiredValue) :
    parseBaseFlagData md = .error (.reservedFlag ("-" ++ tagName md)) := by
  have hres' : "-" ++ goTrim ((goSplit md '|').getD 0 "") = helpArgShort ∨
      "-" ++ goTrim ((goSplit md '|').getD 0 "") = helpArg := by
    simpa [tagName] using (isReservedTag_iff md).mp hres
  unfold parseBaseFlagData checkReserved tagName
  by_cases hlen : 3 < (goSplit md '|').length
  · simp only [if_pos hlen]
    rcases h4 with h | h | h
    · omega
    · rw [h, if_neg (by decide : ¬("" : String) = requiredValue), if_pos rfl, if_pos hres']
    · rw [if_pos h, if_pos hres']
  · simp only [if_neg hlen]
    rw [if_pos hres']

theorem parseBaseFlagData_malformed_err (md : String)
    (hlen : 3 < (goSplit md '|').length)
    (hne : (goSplit md '|').getD 3 "" ≠ "")
    (hnr : (goSplit md '|').getD 3 "" ≠ requiredValue) :
    parseBaseFlagData md = .error (.malformedMetadata ((goSplit md '|').getD 3 "")) := by
  unfold parseBaseFlagData
  simp only [hlen, if_true, hnr, if_false, hne]

theorem parseFlagData_base_err (v : GoVal) (md : String) (p : List Nat) (e : GoError)
    (h : parseBaseFlagData md = .error e) : parseFlagData v md p = .error e := by
  simp [parseFlagData, h]

theorem len_goSplit_ne_empty {md : String} (h : 3 < (goSplit md '|').length) : md ≠ "" := by
  intro he
  subst he
  exact absurd h (by decide)

/-! ## Lemmas composing walker failures into the orchestrator -/

theorem ParseAndLoad_err_of_walk (fs : PFields) (ext : Bool) (env : HookEnv)
    (args : List String) (e : GoError) (h : walkFields fs [] 0 newFlagBuilder = .error e) :
    ParseAndLoad (.mk fs ext) env args = .err e (PStruct.zero (.mk fs ext)) := by
  unfold ParseAndLoad setUpFlags
  rw [h]

theorem walk_err_at_field (pre rest : PFields) (tag : String) (v : GoVal)
    (fb' : FlagBuilder) (e : GoError)
    (hpre : walkFields pre [] 0 newFlagBuilder = .ok fb')
    (hf : processField (.prim tag v) [] (PFields.length pre) fb' = .error e) :
    walkFields (PFields.append pre (.cons (.prim tag v) rest)) [] 0 newFlagBuilder =
      .error e := by
  rw [walkFields_append, hpre]
  simp only [Nat.zero_add]
  simp [walkFields, hf]

mutual
theorem setUpFlags_err_of_hasReserved : ∀ (s : PStruct) (p : List Nat) (fb : FlagBuilder),
    PStruct.hasReserved s = true → ∃ e, setUpFlags s p fb = .error e
  | .mk fs ext, p, fb, h => by
    obtain ⟨e, he⟩ := walkFields_err_of_hasReserved fs p 0 fb
      (by simpa [PStruct.hasReserved] using h)
    exact ⟨e, by simp [setUpFlags, he]⟩
theorem walkFields_err_of_hasReserved : ∀ (fs : PFields) (p : List Nat) (i : Nat)
    (fb : FlagBuilder), PFields.hasReservedF fs = true → ∃ e, walkFields fs p i fb = .error e
  | .nil, p, i, fb, h => by simp [PFields.hasReservedF] at h
  | .cons f tl, p, i, fb, h => by
    rw [PFields.hasReservedF, Bool.or_eq_true] at h
    cases h with
    | inl hf =>
      obtain ⟨e, he⟩ := processField_err_of_hasReserved f p i fb hf
      exact ⟨e, by simp [walkFields, he]⟩
    | inr htl =>
      cases hpf : processField f p i fb with
      | error e => exact ⟨e, by simp [walkFields, hpf]⟩
      | ok fb' =>
        obtain ⟨e, he⟩ := walkFields_err_of_hasReserved tl p (i + 1) fb' htl
        exact ⟨e, by simp [walkFields, hpf, he]⟩
theorem processField_err_of_hasReserved : ∀ (f : PField) (p : List Nat) (i : Nat)
    (fb : FlagBuilder), PField.hasReservedP f = true → ∃ e, processField f p i fb = .error e
  | .prim tag v, p, i, fb, h => by
    rw [PField.hasReservedP, Bool.and_eq_true] at h
    obtain ⟨hres, hsupp⟩ := h
    have htag : tag ≠ "" := isReservedTag_ne_empty hres
    have h4 : (goSplit tag '|').length ≤ 3 ∨ (goSplit tag '|').getD 3 "" = "" ∨
        (goSplit tag '|').getD 3 "" = requiredValue ∨
          ((goSplit tag '|').getD 3 "" ≠ "" ∧
            (goSplit tag '|').getD 3 "" ≠ requiredValue ∧ 3 < (goSplit tag '|').length) := by
      by_cases h1 : 3 < (goSplit tag '|').length
      · by_cases h2 : (goSplit tag '|').getD 3 "" = ""
        · exact Or.inr (Or.inl h2)
        · by_cases h3 : (goSplit tag '|').getD 3 "" = requiredValue
          · exact Or.inr (Or.inr (Or.inl h3))
          · exact Or.inr (Or.inr (Or.inr ⟨h2, h3, h1⟩))
      · exact Or.inl (by omega)
    have herr : ∃ e, parseBaseFlagData tag = .error e := by
      rcases h4 with h | h | h | ⟨hne, hnr, hlen⟩
      · exact ⟨_, parseBaseFlagData_reserved_err tag hres (Or.inl h)⟩
      · exact ⟨_, parseBaseFlagData_reserved_err tag hres (Or.inr (Or.inl h))⟩
      · exact ⟨_, parseBaseFlagData_reserved_err tag hres (Or.inr (Or.inr h))⟩
      · exact ⟨_, parseBaseFlagData_malformed_err tag hlen hne hnr⟩
    obtain ⟨e, he⟩ := herr
    refine ⟨e, ?_⟩
    simp [processField, htag, hsupp, parseFlagData_base_err v tag (p ++ [i]) e he]
  | .nested t sub, p, i, fb, h =>
    setUpFlags_err_of_hasReserved sub (p ++ [i]) fb (by simpa [PField.hasReservedP] using h)
end

/-! ## Claim C1 -/

/-- C1: whenever `ParseAndLoadFlags` returns an error — from flag
collection, token parsing, extension execution or required-field validation
— the structure handed back to the caller is the zero value of the target's
type, regardless of the partial writes performed before the failing stage
(the deferred reset of flag.go). -/
theorem parseAndLoad_error_resets_struct (s : PStruct) (env : HookEnv) (args : List String)
    (e : GoError) (s' : PStruct) (h : ParseAndLoad s env args = .err e s') :
    s' = PStruct.zero s := by
  unfold ParseAndLoad at h
  cases hsu : setUpFlags s [] newFlagBuilder with
  | error e0 =>
    simp only [hsu] at h
    simp only [ParseOutcome.err.injEq] at h
    exact h.2.symm
  | ok fb =>
    simp only [hsu] at h
    cases hpf : parseFlags fb args s with
    | help =>
      simp only [hpf] at h
      exact ParseOutcome.noConfusion h
    | err e1 w =>
      simp only [hpf, ParseOutcome.err.injEq] at h
      exact h.2.symm
    | ok s1 =>
      simp only [hpf] at h
      cases hre : runExtensionFunctions (fb.extFns.map env) s1 with
      | error e2 =>
        simp only [hre, ParseOutcome.err.injEq] at h
        exact h.2.symm
      | ok s2 =>
        simp only [hre] at h
        cases hv : validate fb.required s2 with
        | some e3 =>
          simp only [hv, ParseOutcome.err.injEq] at h
          exact h.2.symm
        | none =>
          simp only [hv] at h
          exact ParseOutcome.noConfusion h

/-- Witness for C1: a structure whose own extension hook fails (the
`FailingParams` scenario of the repository's tests); the run fails in the
extension stage and the caller observes the zero value of the structure. -/
theorem parseAndLoad_error_resets_struct_witness :
    ParseAndLoad (.mk (.cons (.prim "ni|Testing string|" (.vstr "filled")) .nil) true)
        (fun _ _ => .error "mock error in extension") [] =
      .err (.extensionFailed "mock error in extension")
        (.mk (.cons (.prim "ni|Testing string|" (.vstr "")) .nil) true) ∧
    (.mk (.cons (.prim "ni|Testing string|" (.vstr "")) .nil) true : PStruct) =
      PStruct.zero (.mk (.cons (.prim "ni|Testing string|" (.vstr "filled")) .nil) true) := by
  constructor
  · rfl
  · exact parseAndLoad_error_resets_struct
      (.mk (.cons (.prim "ni|Testing string|" (.vstr "filled")) .nil) true)
      (fun _ _ => .error "mock error in extension") []
      (.extensionFailed "mock error in extension")
      (.mk (.cons (.prim "ni|Testing string|" (.vstr "")) .nil) true) rfl

/-! ## Claim C2 -/

/-- C2: a target structure containing (anywhere in its nested field tree) a
supported field annotated with flag name `h` or `help` makes
`ParseAndLoadFlags` fail during flag collection: the outcome is one fixed
error with the zeroed structure, identical for every token list — so the
failure happens before any CLI token is parsed.  Moreover, when the walk
reaches such a field after a cleanly registered prefix and the field's
fourth annotation segment is well formed, the returned error is precisely
the "reserved flag overwriting not allowed" error for that hyphen-prefixed
name. -/
theorem reserved_name_fails_registration :
    (∀ (s : PStruct) (env : HookEnv), PStruct.hasReserved s = true →
      ∃ e, ∀ args : List String, ParseAndLoad s env args = .err e (PStruct.zero s))
    ∧ (∀ (pre rest : PFields) (ext : Bool) (tag : String) (v : GoVal)
        (env : HookEnv) (args : List String) (fb' : FlagBuilder),
        walkFields pre [] 0 newFlagBuilder = .ok fb' →
        v.isSupported = true →
        isReservedTag tag = true →
        ((goSplit tag '|').length ≤ 3 ∨ (goSplit tag '|').getD 3 "" = "" ∨
          (goSplit tag '|').getD 3 "" = requiredValue) →
        ParseAndLoad (.mk (PFields.append pre (.cons (.prim tag v) rest)) ext) env args =
          .err (.reservedFlag ("-" ++ tagName tag))
            (PStruct.zero (.mk (PFields.append pre (.cons (.prim tag v) rest)) ext))) := by
  constructor
  · intro s env h
    obtain ⟨e, he⟩ := setUpFlags_err_of_hasReserved s [] newFlagBuilder h
    refine ⟨e, fun args => ?_⟩
    unfold ParseAndLoad
    rw [he]
  · intro pre rest ext tag v env args fb' hpre hsupp hres h4
    have htag : tag ≠ "" := isReservedTag_ne_empty hres
    have hbase := parseBaseFlagData_reserved_err tag hres h4
    have hpfd := parseFlagData_base_err v tag [PFields.length pre] _ hbase
    have hpf : processField (.prim tag v) [] (PFields.length pre) fb' =
        .error (.reservedFlag ("-" ++ tagName tag)) := by
      simp [processField, htag, hsupp, hpfd]
    exact ParseAndLoad_err_of_walk _ ext env args _
      (walk_err_at_field pre rest tag v fb' _ hpre hpf)

/-- Witness for C2: a one-field structure annotated `h` (the repository
test "fail - trying to overwrite the short help flag") fails with the
reserved-flag error and the zeroed structure even with a nonempty token
list. -/
theorem reserved_name_fails_registration_witness :
    ParseAndLoad (.mk (.cons (.prim "h" (.vbool false)) .nil) false)
        (fun _ s => .ok s) ["-x"] =
      .err (.reservedFlag "-h") (.mk (.cons (.prim "h" (.vbool false)) .nil) false) := by
  exact reserved_name_fails_registration.2 .nil .nil false "h" (.vbool false)
    (fun _ s => .ok s) ["-x"] newFlagBuilder rfl rfl (by decide) (Or.inl (by decide))

/-! ## Claim C3 -/

/-- C3: an annotation whose fourth pipe-delimited segment is present and
nonempty but differs from the required marker makes the metadata parser
fail with the "unsupported value in the fourth metadata part" error; that
error message quotes the offending segment; and, reached through a cleanly
registered prefix, it aborts the whole `ParseAndLoadFlags` invocation with
that error and the zeroed structure. -/
theorem fourth_segment_invalid_fails :
    (∀ md : String, 3 < (goSplit md '|').length → (goSplit md '|').getD 3 "" ≠ "" →
      (goSplit md '|').getD 3 "" ≠ requiredValue →
      parseBaseFlagData md = .error (.malformedMetadata ((goSplit md '|').getD 3 "")))
    ∧ (∀ seg : String, errMsg (.malformedMetadata seg) =
        "unsupported value " ++ goQuote seg ++ " in the fourth metadata part")
    ∧ (∀ (pre rest : PFields) (ext : Bool) (md : String) (v : GoVal) (env : HookEnv)
        (args : List String) (fb' : FlagBuilder),
        walkFields pre [] 0 newFlagBuilder = .ok fb' →
        v.isSupported = true →
        3 < (goSplit md '|').length → (goSplit md '|').getD 3 "" ≠ "" →
        (goSplit md '|').getD 3 "" ≠ requiredValue →
        ParseAndLoad (.mk (PFields.append pre (.cons (.prim md v) rest)) ext) env args =
          .err (.malformedMetadata ((goSplit md '|').getD 3 ""))
            (PStruct.zero (.mk (PFields.append pre (.cons (.prim md v) rest)) ext))) := by
  refine ⟨parseBaseFlagData_malformed_err, fun _ => rfl, ?_⟩
  intro pre rest ext md v env args fb' hpre hsupp hlen hne hnr
  have htag : md ≠ "" := len_goSplit_ne_empty hlen
  have hbase := parseBaseFlagData_malformed_err md hlen hne hnr
  have hpfd := parseFlagData_base_err v md [PFields.length pre] _ hbase
  have hpf : processField (.prim md v) [] (PFields.length pre) fb' =
      .error (.malformedMetadata ((goSplit md '|').getD 3 "")) := by
    simp [processField, htag, hsupp, hpfd]
  exact ParseAndLoad_err_of_walk _ ext env args _
    (walk_err_at_field pre rest md v fb' _ hpre hpf)

/-- Witness for C3: the annotation of the repository test "fail - fourth
segment invalid" (`str|Testing string||whatever` on a boolean field) aborts
the run with the "unsupported value" error. -/
theorem fourth_segment_invalid_fails_witness :
    ParseAndLoad (.mk (.cons (.prim "str|Testing string||whatever" (.vbool false)) .nil) false)
        (fun _ s => .ok s) [] =
      .err (.malformedMetadata "whatever")
        (.mk (.cons (.prim "str|Testing string||whatever" (.vbool false)) .nil) false) := by
  exact fourth_segment_invalid_fails.2.2 .nil .nil false "str|Testing string||whatever"
    (.vbool false) (fun _ s => .ok s) [] newFlagBuilder rfl rfl
    (by decide) (by decide) (by decide)

/-! ## Claim C5 -/

/-- C5: an annotated field whose static type is none of the eight supported
primitives and is not a struct makes `ParseAndLoadFlags` return the typed
"unsupported flag type" error to the caller (with the zeroed structure)
rather than panicking: the walker's type switch falls through to an error
return. -/
theorem unsupported_type_errors (pre rest : PFields) (ext : Bool) (tag tname : String)
    (env : HookEnv) (args : List String) (fb' : FlagBuilder)
    (hpre : walkFields pre [] 0 newFlagBuilder = .ok fb')
    (htag : tag ≠ "") :
    ParseAndLoad (.mk (PFields.append pre (.cons (.prim tag (.vother tname)) rest)) ext)
        env args =
      .err (.unsupportedType tname)
        (PStruct.zero (.mk (PFields.append pre (.cons (.prim tag (.vother tname)) rest)) ext))
    ∧ errMsg (.unsupportedType tname) = "unsupported flag type: " ++ tname := by
  have hpf : processField (.prim tag (.vother tname)) [] (PFields.length pre) fb' =
      .error (.unsupportedType tname) := by
    simp [processField, htag, GoVal.isSupported, GoVal.typeName]
  exact ⟨ParseAndLoad_err_of_walk _ ext env args _
    (walk_err_at_field pre rest tag (.vother tname) fb' _ hpre hpf), rfl⟩

/-- Witness for C5: a field of slice type `[]string` carrying an annotation
is rejected with the "unsupported flag type" error and the zeroed
structure. -/
theorem unsupported_type_errors_witness :
    ParseAndLoad (.mk (.cons (.prim "xs|a slice|" (.vother "[]string")) .nil) false)
        (fun _ s => .ok s) [] =
      .err (.unsupportedType "[]string")
        (.mk (.cons (.prim "xs|a slice|" (.vother "[]string")) .nil) false) := by
  exact (unsupported_type_errors .nil .nil false "xs|a slice|" "[]string"
    (fun _ s => .ok s) [] newFlagBuilder rfl (by decide)).1

/-! ## Claim C8 -/

/-- C8: an annotation whose fourth segment equals the required marker
produces a descriptor with `isRequired = true` and an empty default-value
text, so the decoded default is the field type's zero value — for every
supported field type and even when a nonempty (or even undecodable) third
segment was supplied. -/
theorem required_marker_clears_default (md n u d : String)
    (hsplit : goSplit md '|' = [n, u, d, requiredValue])
    (h1 : goTrim n ≠ "h") (h2 : goTrim n ≠ "help") :
    parseBaseFlagData md = .ok ({ name := goTrim n, usage := goTrim u, isRequired := true }, "")
    ∧ ∀ (v : GoVal) (p : List Nat),
        parseFlagData v md p =
          .ok { name := goTrim n, usage := goTrim u, isRequired := true,
                defaultVal := GoVal.zero v, path := p } := by
  have hno : ¬("-" ++ goTrim n = helpArgShort ∨ "-" ++ goTrim n = helpArg) := by
    rintro (hh | hh)
    · exact h1 ((hyphen_append_inj (goTrim n) "h").mp hh)
    · exact h2 ((hyphen_append_inj (goTrim n) "help").mp hh)
  have hbase : parseBaseFlagData md =
      .ok ({ name := goTrim n, usage := goTrim u, isRequired := true }, "") := by
    unfold parseBaseFlagData checkReserved
    rw [hsplit]
    simp [List.getD, hno]
  refine ⟨hbase, fun v p => ?_⟩
  simp [parseFlagData, hbase]

/-- Witness for C8: the annotation `str|desc|99|required` on an `int` field
yields a required flag whose decoded default is `0`, the supplied default
text `99` notwithstanding. -/
theorem required_marker_clears_default_witness :
    parseFlagData (.vint 5) "str|desc|99|required" [2] =
      .ok { name := "str", usage := "desc", isRequired := true,
            defaultVal := .vint 0, path := [2] } := by
  exact (required_marker_clears_default "str|desc|99|required" "str" "desc" "99"
    rfl (by decide) (by decide)).2 (.vint 5) [2]

/-! ## Claim C9 (corrected) -/

/-- C9 counterexample: the claim states that an integer field's default text
is decoded with that field type's bit width and signedness, failing exactly
on literals that do not parse as that exact type.  On the modelled 64-bit
platform the `uint` type is 64 bits wide and `4294967296` (`2^32`) is a
valid `uint` value — `strconv.ParseUint` at 64 bits accepts it — yet the
code decodes `uint` defaults with `strconv.ParseUint(s, 10, 32)`
(flagbuilder.go, the `case uint` branch), so the decode and the whole
`ParseAndLoadFlags` invocation fail on it. -/
theorem uint_default_width_counterexample :
    parseFlagData (.vuint 0) "unum|Testing number|4294967296|" [0] =
      .error (.defaultParse "strconv.ParseUint: parsing \"4294967296\": value out of range")
    ∧ parseUintGo "4294967296" 64 = .ok 4294967296
    ∧ ParseAndLoad
        (.mk (.cons (.prim "unum|Testing number|4294967296|" (.vuint 0)) .nil) false)
        (fun _ s => .ok s) [] =
      .err (.defaultParse "strconv.ParseUint: parsing \"4294967296\": value out of range")
        (.mk (.cons (.prim "unum|Testing number|4294967296|" (.vuint 0)) .nil) false) := by
  exact ⟨rfl, rfl, rfl⟩

/-- C9 amended: a nonempty default text of an `int` or `int64` field is
decoded as a signed 64-bit integer (`strconv.Atoi` / `ParseInt` at 64 bits)
and of a `uint64` field as an unsigned 64-bit integer, matching those field
types' widths; a `uint` field's default, however, is decoded with
`strconv.ParseUint` at 32-bit width and then converted, so literals in
`[2^32, 2^64)` are rejected although they fit the (64-bit) `uint` type; in
every case a decoder failure is propagated as-is and makes
`ParseAndLoadFlags` fail with it. -/
theorem integer_default_decoder_widths (md n u d : String) (p : List Nat)
    (hsplit : goSplit md '|' = [n, u, d])
    (htrim : goTrim d = d) (hd : d ≠ "")
    (h1 : goTrim n ≠ "h") (h2 : goTrim n ≠ "help") :
    (parseFlagData (.vint 0) md p = match parseIntGo d 64 with
      | .ok k => .ok { name := goTrim n, usage := goTrim u, isRequired := false,
                       defaultVal := .vint k, path := p }
      | .error e => .error (.defaultParse e))
    ∧ (parseFlagData (.vint64 0) md p = match parseIntGo d 64 with
      | .ok k => .ok { name := goTrim n, usage := goTrim u, isRequired := false,
                       defaultVal := .vint64 k, path := p }
      | .error e => .error (.defaultParse e))
    ∧ (parseFlagData (.vuint 0) md p = match parseUintGo d 32 with
      | .ok k => .ok { name := goTrim n, usage := goTrim u, isRequired := false,
                       defaultVal := .vuint k, path := p }
      | .error e => .error (.defaultParse e))
    ∧ (parseFlagData (.vuint64 0) md p = match parseUintGo d 64 with
      | .ok k => .ok { name := goTrim n, usage := goTrim u, isRequired := false,
                       defaultVal := .vuint64 k, path := p }
      | .error e => .error (.defaultParse e))
    ∧ (∀ (e : String) (ext : Bool) (env : HookEnv) (args : List String),
        parseUintGo d 32 = .error e →
        ParseAndLoad (.mk (.cons (.prim md (.vuint 0)) .nil) ext) env args =
          .err (.defaultParse e)
            (PStruct.zero (.mk (.cons (.prim md (.vuint 0)) .nil) ext))) := by
  have hno : ¬("-" ++ goTrim n = helpArgShort ∨ "-" ++ goTrim n = helpArg) := by
    rintro (hh | hh)
    · exact h1 ((hyphen_append_inj (goTrim n) "h").mp hh)
    · exact h2 ((hyphen_append_inj (goTrim n) "help").mp hh)
  have hbase : parseBaseFlagData md =
      .ok ({ name := goTrim n, usage := goTrim u, isRequired := false }, d) := by
    unfold parseBaseFlagData checkReserved
    rw [hsplit]
    simp [List.getD, hno, htrim]
  have hmd : md ≠ "" := by
    intro he
    rw [he] at hsplit
    exact absurd hsplit (by simp [show goSplit "" '|' = [""] from rfl])
  have hint : parseFlagData (.vint 0) md p = match parseIntGo d 64 with
      | .ok k => .ok { name := goTrim n, usage := goTrim u, isRequired := false,
                       defaultVal := .vint k, path := p }
      | .error e => .error (.defaultParse e) := by
    cases hk : parseIntGo d 64 <;> simp [parseFlagData, hbase, decodeDefault, Except.map, hd, hk]
  have hint64 : parseFlagData (.vint64 0) md p = match parseIntGo d 64 with
      | .ok k => .ok { name := goTrim n, usage := goTrim u, isRequired := false,
                       defaultVal := .vint64 k, path := p }
      | .error e => .error (.defaultParse e) := by
    cases hk : parseIntGo d 64 <;> simp [parseFlagData, hbase, decodeDefault, Except.map, hd, hk]
  have huint : ∀ q : List Nat, parseFlagData (.vuint 0) md q = match parseUintGo d 32 with
      | .ok k => .ok { name := goTrim n, usage := goTrim u, isRequired := false,
                       defaultVal := .vuint k, path := q }
      | .error e => .error (.defaultParse e) := by
    intro q
    cases hk : parseUintGo d 32 <;> simp [parseFlagData, hbase, decodeDefault, Except.map, hd, hk]
  have huint64 : parseFlagData (.vuint64 0) md p = match parseUintGo d 64 with
      | .ok k => .ok { name := goTrim n, usage := goTrim u, isRequired := false,
                       defaultVal := .vuint64 k, path := p }
      | .error e => .error (.defaultParse e) := by
    cases hk : parseUintGo d 64 <;> simp [parseFlagData, hbase, decodeDefault, Except.map, hd, hk]
  refine ⟨hint, hint64, huint p, huint64, ?_⟩
  intro e ext env args hk
  have hpd : parseFlagData (.vuint 0) md [0] = .error (.defaultParse e) := by
    rw [huint [0], hk]
  have hpf : processField (.prim md (.vuint 0)) [] 0 newFlagBuilder =
      .error (.defaultParse e) := by
    simp [processField, GoVal.isSupported, hmd, hpd]
  have hwalk : walkFields (.cons (.prim md (.vuint 0)) .nil) [] 0 newFlagBuilder =
      .error (.defaultParse e) := by
    simp [walkFields, hpf]
  exact ParseAndLoad_err_of_walk _ ext env args _ hwalk

/-- Witness for C9's amended theorem: the `int` default `123` decodes to
`123`, and the `uint` default `4294967295` (`2^32 - 1`, the 32-bit
boundary) still decodes. -/
theorem integer_default_decoder_widths_witness :
    parseFlagData (.vint 0) "num|Testing number|123" [0] =
      .ok { name := "num", usage := "Testing number", isRequired := false,
            defaultVal := .vint 123, path := [0] } ∧
    parseFlagData (.vuint 0) "unum|Testing number|4294967295" [1] =
      .ok { name := "unum", usage := "Testing number", isRequired := false,
            defaultVal := .vuint 4294967295, path := [1] } := by
  constructor
  · exact (integer_default_decoder_widths "num|Testing number|123" "num" "Testing number"
      "123" [0] rfl rfl (by decide) (by decide) (by decide)).1
  · exact (integer_default_decoder_widths "unum|Testing number|4294967295" "unum"
      "Testing number" "4294967295" [1] rfl rfl (by decide) (by decide) (by decide)).2.2.1

end Easyflag
